import Mathlib

/-!
# Verification of the cursor-pager / viewer-scoped-projector core

Shallow embedding of the read-model and relation-write request handlers of a
social-media web application (Next.js + Prisma).  Collections fetched from the
relational store are modelled as Lean lists already in the fetch order
(`orderBy createdAt desc` for posts, `asc` for comments); a Prisma
`findMany` with a `cursor` positions the result **at** the cursor record
(Prisma's cursor is inclusive: the code passes no `skip`), which is modelled
by `dropWhile (id ≠ cursor)`.  Machine strings are Lean `String`s; the
JavaScript `split`/`join` pair of the search-query builder is modelled at the
character-list level.
-/

set_option linter.unusedVariables false

/-- A post record as returned by `prisma.post.findMany`.  The author's
`displayName` and `username` (reached through the `user` relation in the
source) are flattened into the record. -/
structure Post where
  id : String
  userId : String
  content : String
  displayName : String
  username : String
deriving DecidableEq, Repr

/-- Convenience constructor: a post with only its `id` relevant. -/
def mkPost (i : String) : Post :=
  ⟨i, "u", "", "", ""⟩

/-- The part of the ordered collection a Prisma `findMany` scans:  with no
`cursor` the whole collection, with `cursor: { id: c }` the suffix starting
**at** the record whose id is `c` (Prisma's cursor is inclusive; the handlers
pass no `skip`). -/
def restOf {α : Type} (idOf : α → String) (coll : List α) : Option String → List α
  | none => coll
  | some c => coll.dropWhile (fun r => idOf r != c)

/-- `findMany({ orderBy, take: n, cursor })`: the first `n` records of the
scanned suffix. -/
def fetchRecords {α : Type} (idOf : α → String) (coll : List α)
    (cursor : Option String) (n : Nat) : List α :=
  (restOf idOf coll cursor).take n

/-- The common pagination step of every read handler:  fetch `pageSize + 1`
records, return the first `pageSize` as the page, and make the
`(pageSize+1)`-th record's identifier the `nextCursor`
(`recs.length > pageSize ? recs[pageSize].id : null`). -/
def pageOf {α : Type} (idOf : α → String) (coll : List α)
    (pageSize : Nat) (cursor : Option String) : List α × Option String :=
  let recs := fetchRecords idOf coll cursor (pageSize + 1)
  (recs.take pageSize, (recs.get? pageSize).map idOf)

/-- The `PostsPage` response shape `{ posts, nextCursor }`. -/
structure PostsPage where
  posts : List Post
  nextCursor : Option String
deriving DecidableEq, Repr

/-- The post-authentication body of the feed handler
(`app/api/posts/for-you` GET): paginate the posts collection with
`pageSize = 10` in the source; the page size is kept as a parameter here. -/
def fetchPage (coll : List Post) (pageSize : Nat) (cursor : Option String) : PostsPage :=
  let pr := pageOf Post.id coll pageSize cursor
  { posts := pr.1, nextCursor := pr.2 }

/-- The eleven-post collection of the spec's concrete scenario, in fetch
order (`createdAt desc`, `p11` newest). -/
def coll11 : List Post :=
  [mkPost "p11", mkPost "p10", mkPost "p9", mkPost "p8", mkPost "p7",
   mkPost "p6", mkPost "p5", mkPost "p4", mkPost "p3", mkPost "p2", mkPost "p1"]

/-- C3: for 11 posts `p1..p11` created in that order (`p11` newest) and
`pageSize = 10`, the first `fetchPage` call with no cursor returns
`[p11,...,p2]` with `nextCursor = "p1"`, and a second call with
`cursor = "p1"` returns exactly `[p1]` with `nextCursor = null`. -/
theorem claim3_eleven_posts_scenario :
    fetchPage coll11 10 none =
      { posts := [mkPost "p11", mkPost "p10", mkPost "p9", mkPost "p8",
                  mkPost "p7", mkPost "p6", mkPost "p5", mkPost "p4",
                  mkPost "p3", mkPost "p2"],
        nextCursor := some "p1" } ∧
    fetchPage coll11 10 (some "p1") =
      { posts := [mkPost "p1"], nextCursor := none } := by
  constructor <;> rfl

/-! ## Cursor-follow iteration of the pager

`paginate` performs the client-side loop: first call with no cursor, then
repeatedly follow the returned `nextCursor` until it is `null`, collecting
the returned pages.  Fuel (`coll.length + 1`) bounds the recursion; it is
always sufficient because every continued step advances by `pageSize ≥ 1`
records. -/

def paginateAux (P : Nat) (coll : List Post) : Nat → Option String → List (List Post)
  | 0, _ => []
  | fuel + 1, cursor =>
      let pg := fetchPage coll P cursor
      match pg.nextCursor with
      | none => [pg.posts]
      | some c => pg.posts :: paginateAux P coll fuel (some c)

def paginate (coll : List Post) (P : Nat) : List (List Post) :=
  paginateAux P coll (coll.length + 1) none

/-- Reference pagination of a suffix: take `P`, recurse on the rest while
more than `P` records remain. -/
def simplePages (P : Nat) : Nat → List Post → List (List Post)
  | 0, _ => []
  | fuel + 1, s => if P < s.length then s.take P :: simplePages P fuel (s.drop P) else [s]

/-- In a list whose ids are pairwise distinct, dropping while the id differs
from the id of the `k`-th element lands exactly at index `k`. -/
lemma dropWhile_ne_get {α : Type} (idOf : α → String) :
    ∀ (l : List α) (k : Nat) (hk : k < l.length), (l.map idOf).Nodup →
      l.dropWhile (fun r => idOf r != idOf (l.get ⟨k, hk⟩)) = l.drop k := by
  intro l
  induction l with
  | nil => intro k hk _; simp at hk
  | cons a as ih =>
    intro k hk hnd
    cases k with
    | zero =>
      simp [List.dropWhile_cons]
    | succ k =>
      have hk' : k < as.length := Nat.lt_of_succ_lt_succ hk
      have hmem : idOf (as.get ⟨k, hk'⟩) ∈ as.map idOf := by
        exact List.mem_map_of_mem idOf (as.get_mem k hk')
      have hnd' : idOf a ∉ as.map idOf ∧ (as.map idOf).Nodup := by
        rw [List.map_cons, List.nodup_cons] at hnd
        exact hnd
      have hne : idOf a ≠ idOf (as.get ⟨k, hk'⟩) := fun h => hnd'.1 (h ▸ hmem)
      have hget : (a :: as).get ⟨k + 1, hk⟩ = as.get ⟨k, hk'⟩ := rfl
      rw [hget]
      rw [List.dropWhile_cons]
      simp only [bne_iff_ne, ne_eq, hne, not_false_eq_true, if_pos]
      rw [ih k hk' hnd'.2]
      rfl

/-- Unfolding of one pager step: page and next cursor in terms of the
scanned suffix. -/
lemma fetchPage_posts (coll : List Post) (P : Nat) (cursor : Option String) :
    (fetchPage coll P cursor).posts = (restOf Post.id coll cursor).take P := by
  simp [fetchPage, pageOf, fetchRecords, List.take_take, Nat.min_comm]

lemma fetchPage_nextCursor (coll : List Post) (P : Nat) (cursor : Option String) :
    (fetchPage coll P cursor).nextCursor
      = ((restOf Post.id coll cursor).get? P).map Post.id := by
  simp [fetchPage, pageOf, fetchRecords]

lemma paginateAux_succ (P : Nat) (coll : List Post) (fuel : Nat) (cursor : Option String) :
    paginateAux P coll (fuel + 1) cursor =
      match (fetchPage coll P cursor).nextCursor with
      | none => [(fetchPage coll P cursor).posts]
      | some c => (fetchPage coll P cursor).posts :: paginateAux P coll fuel (some c) := rfl

/-- The cursor-follow loop over a collection with pairwise-distinct ids
behaves like straightforward suffix pagination: whenever the cursor's scan
suffix is `coll.drop k`, the loop from that cursor equals `simplePages`
on `coll.drop k`. -/
lemma paginateAux_eq_simplePages (P : Nat) (coll : List Post)
    (hnd : (coll.map Post.id).Nodup) :
    ∀ (fuel : Nat) (cursor : Option String) (k : Nat),
      restOf Post.id coll cursor = coll.drop k →
      paginateAux P coll fuel cursor = simplePages P fuel (coll.drop k) := by
  intro fuel
  induction fuel with
  | zero => intro cursor k _; rfl
  | succ fuel ih =>
    intro cursor k hrest
    have hposts : (fetchPage coll P cursor).posts = (coll.drop k).take P := by
      rw [fetchPage_posts, hrest]
    have hnext : (fetchPage coll P cursor).nextCursor
        = ((coll.drop k).get? P).map Post.id := by
      rw [fetchPage_nextCursor, hrest]
    by_cases hlt : P < (coll.drop k).length
    · -- the scan found a (P+1)-th record: continue from it
      have hkP : k + P < coll.length := by
        have := List.length_drop k coll
        omega
      have hget : (coll.drop k).get? P = some (coll.get ⟨k + P, hkP⟩) := by
        rw [List.get?_drop]
        exact List.get?_eq_get hkP
      have hnext' : (fetchPage coll P cursor).nextCursor
          = some (Post.id (coll.get ⟨k + P, hkP⟩)) := by
        rw [hnext, hget]; rfl
      have hrest' : restOf Post.id coll (some (Post.id (coll.get ⟨k + P, hkP⟩)))
          = coll.drop (k + P) := by
        simpa [restOf] using dropWhile_ne_get Post.id coll (k + P) hkP hnd
      rw [paginateAux_succ, hnext']
      show (fetchPage coll P cursor).posts
            :: paginateAux P coll fuel (some (Post.id (coll.get ⟨k + P, hkP⟩)))
          = simplePages P (fuel + 1) (coll.drop k)
      rw [ih _ (k + P) hrest']
      rw [simplePages, if_pos hlt, hposts]
      rw [List.drop_drop]
    · -- at most P records remain: this is the last page
      have hget : (coll.drop k).get? P = none := by
        rw [List.get?_eq_none]
        omega
      have hnext' : (fetchPage coll P cursor).nextCursor = none := by
        rw [hnext, hget]; rfl
      rw [paginateAux_succ, hnext']
      show [(fetchPage coll P cursor).posts] = simplePages P (fuel + 1) (coll.drop k)
      rw [simplePages, if_neg hlt, hposts]
      rw [List.take_all_of_le (by omega)]

/-- Concatenating the pages of `simplePages` restores the suffix, given
enough fuel. -/
lemma simplePages_join (P : Nat) (hP : 0 < P) :
    ∀ (fuel : Nat) (s : List Post), s.length < fuel →
      (simplePages P fuel s).flatten = s := by
  intro fuel
  induction fuel with
  | zero => intro s hs; omega
  | succ fuel ih =>
    intro s hs
    by_cases hlt : P < s.length
    · rw [simplePages, if_pos hlt]
      rw [List.flatten_cons, ih (s.drop P) (by simp [List.length_drop]; omega)]
      exact List.take_append_drop P s
    · rw [simplePages, if_neg hlt]
      simp

/-- The number of pages of `simplePages`: one page for the empty suffix,
`⌈length / P⌉` otherwise. -/
lemma simplePages_length (P : Nat) (hP : 0 < P) :
    ∀ (fuel : Nat) (s : List Post), s.length < fuel →
      (simplePages P fuel s).length
        = if s.length = 0 then 1 else (s.length + P - 1) / P := by
  intro fuel
  induction fuel with
  | zero => intro s hs; omega
  | succ fuel ih =>
    intro s hs
    by_cases hlt : P < s.length
    · rw [simplePages, if_pos hlt]
      have hdrop : (s.drop P).length = s.length - P := List.length_drop P s
      rw [List.length_cons, ih (s.drop P) (by omega)]
      rw [if_neg (by omega), if_neg (by omega), hdrop]
      have h1 : s.length - P + P - 1 = s.length - 1 := by omega
      have h2 : s.length + P - 1 = (s.length - 1) + P := by omega
      rw [h1, h2, Nat.add_div_right _ hP]
    · rw [simplePages, if_neg hlt]
      by_cases h0 : s.length = 0
      · simp [h0]
      · rw [if_neg h0]
        have : (s.length + P - 1) / P = 1 := by
          refine Nat.div_eq_of_lt_le (by omega) (by omega)
        simp [this]

/-! ## Claims about the pager -/

/-- Counterexample to C1 as stated: for the empty collection (`N = 0`) and
`pageSize = 10`, the cursor-follow loop yields one (empty) page, not
`⌈0/10⌉ = 0` pages. -/
theorem claim1_counterexample :
    (paginate ([] : List Post) 10).length
      ≠ (([] : List Post).length + 10 - 1) / 10 := by
  decide

/-- C1 (amended): for every collection with pairwise-distinct ids and every
positive page size, following `nextCursor` from the first cursorless call
concatenates to exactly the full ordered collection (no duplicates, no
omissions), and the number of pages is `⌈N/P⌉` when `N ≥ 1` and one single
empty page when `N = 0`. -/
theorem claim1_pager_traversal (coll : List Post) (P : Nat) (hP : 0 < P)
    (hnd : (coll.map Post.id).Nodup) :
    (paginate coll P).flatten = coll ∧
    (paginate coll P).length
      = if coll.length = 0 then 1 else (coll.length + P - 1) / P := by
  have h0 : restOf Post.id coll none = coll.drop 0 := by
    simp [restOf]
  have he := paginateAux_eq_simplePages P coll hnd (coll.length + 1) none 0 h0
  rw [List.drop_zero] at he
  rw [paginate, he]
  exact ⟨simplePages_join P hP _ coll (Nat.lt_succ_self _),
         simplePages_length P hP _ coll (Nat.lt_succ_self _)⟩

def collW : List Post := [mkPost "a", mkPost "b", mkPost "c"]

theorem claim1_pager_traversal_witness :
    (paginate collW 2).flatten = collW ∧
    (paginate collW 2).length
      = if collW.length = 0 then 1 else (collW.length + 2 - 1) / 2 :=
  claim1_pager_traversal collW 2 (by decide) (by decide)

/-- `fetchRecords` as claim C2 words it ("starting strictly after the record
identified by the cursor; the cursor record itself is not part of the
fetched records").  Stated from the claim's words, for comparison with the
code's `fetchRecords`. -/
def fetchRecordsAfter {α : Type} (idOf : α → String) (coll : List α)
    (c : String) (n : Nat) : List α :=
  ((coll.dropWhile (fun r => idOf r != c)).drop 1).take n

/-- Counterexample to C2 as stated: on the two-record collection
`[r1, r2]` with cursor `"r2"`, the code's fetch returns `[r2]` — the cursor
record itself **is** among the fetched records (Prisma's cursor is
inclusive), while the claim's strictly-after fetch would return `[]`. -/
theorem claim2_counterexample :
    fetchRecords Post.id [mkPost "r1", mkPost "r2"] (some "r2") 2
      = [mkPost "r2"] ∧
    (mkPost "r2").id = "r2" ∧
    fetchRecordsAfter Post.id [mkPost "r1", mkPost "r2"] "r2" 2 = [] ∧
    fetchRecords Post.id [mkPost "r1", mkPost "r2"] (some "r2") 2
      ≠ fetchRecordsAfter Post.id [mkPost "r1", mkPost "r2"] "r2" 2 := by
  refine ⟨by decide, by decide, by decide, by decide⟩

/-- C2 (amended): a paginated fetch with a cursor fetches `pageSize + 1`
records ordered by the order key starting **at** the cursor record
inclusively (the cursor record is the first fetched record and is included
in the returned page); when the fetched count exceeds `pageSize`, the
`(pageSize+1)`-th record's identifier becomes `nextCursor` and that record
is excluded from the returned page, otherwise `nextCursor` is null. -/
theorem claim2_cursor_step (coll : List Post) (P k : Nat) (hk : k < coll.length)
    (hnd : (coll.map Post.id).Nodup) :
    fetchRecords Post.id coll (some ((coll.get ⟨k, hk⟩).id)) (P + 1)
        = (coll.drop k).take (P + 1) ∧
    (fetchRecords Post.id coll (some ((coll.get ⟨k, hk⟩).id)) (P + 1)).head?
        = some (coll.get ⟨k, hk⟩) ∧
    (fetchPage coll P (some ((coll.get ⟨k, hk⟩).id))).posts
        = (coll.drop k).take P ∧
    (fetchPage coll P (some ((coll.get ⟨k, hk⟩).id))).nextCursor
        = (coll.get? (k + P)).map Post.id := by
  have hrest : restOf Post.id coll (some ((coll.get ⟨k, hk⟩).id)) = coll.drop k := by
    simpa [restOf] using dropWhile_ne_get Post.id coll k hk hnd
  have hdropk : coll.drop k = coll.get ⟨k, hk⟩ :: coll.drop (k + 1) := by
    simpa using List.drop_eq_getElem_cons hk
  refine ⟨?_, ?_, ?_, ?_⟩
  · rw [fetchRecords, hrest]
  · rw [fetchRecords, hrest, List.head?_take, if_neg (Nat.succ_ne_zero P), hdropk]
    rfl
  · rw [fetchPage_posts, hrest]
  · rw [fetchPage_nextCursor, hrest, List.get?_drop]

def collW2 : List Post := [mkPost "a", mkPost "b", mkPost "c"]

theorem claim2_cursor_step_witness :
    fetchRecords Post.id collW2 (some ((collW2.get ⟨1, by decide⟩).id)) (1 + 1)
        = (collW2.drop 1).take (1 + 1) ∧
    (fetchRecords Post.id collW2 (some ((collW2.get ⟨1, by decide⟩).id)) (1 + 1)).head?
        = some (collW2.get ⟨1, by decide⟩) ∧
    (fetchPage collW2 1 (some ((collW2.get ⟨1, by decide⟩).id))).posts
        = (collW2.drop 1).take 1 ∧
    (fetchPage collW2 1 (some ((collW2.get ⟨1, by decide⟩).id))).nextCursor
        = (collW2.get? (1 + 1)).map Post.id :=
  claim2_cursor_step collW2 1 1 (by decide) (by decide)

/-- C4: for every paginated fetch (any collection, any page size, any
cursor), `nextCursor` is null exactly when no records remain beyond the
returned page in the scanned suffix — the returned page is the last page. -/
theorem claim4_nextCursor_none_iff_last (coll : List Post) (P : Nat)
    (cursor : Option String) :
    (fetchPage coll P cursor).nextCursor = none ↔
      (restOf Post.id coll cursor).drop (fetchPage coll P cursor).posts.length
        = [] := by
  rw [fetchPage_nextCursor, fetchPage_posts]
  simp only [Option.map_eq_none', List.get?_eq_none, List.drop_eq_nil_iff_le,
    List.length_take]
  omega

/-! ## Search query builder

`const searchQuery = q.split(" ").join(" & ")` modelled at the character
level: `jsSplit` is JavaScript's `String.prototype.split` with a
single-character separator (splits at every occurrence, keeps empty pieces,
`"".split(" ") = [""]`), `jsJoin` is `Array.prototype.join`. -/

def jsSplit (sep : Char) : List Char → List (List Char)
  | [] => [[]]
  | a :: as =>
    match jsSplit sep as with
    | [] => [[]]
    | t :: ts => if a = sep then [] :: t :: ts else (a :: t) :: ts

def jsJoin (sep : List Char) : List (List Char) → List Char
  | [] => []
  | [t] => t
  | t :: t' :: ts => t ++ sep ++ jsJoin sep (t' :: ts)

/-- `q.split(" ").join(" & ")` from the search route. -/
def buildTextQuery (q : List Char) : List Char :=
  jsJoin [' ', '&', ' '] (jsSplit ' ' q)

/-- Splitting on arbitrary whitespace characters, as claim C7 words the
contract ("splits rawQuery on whitespace").  Stated from the claim, for
comparison with the code's `buildTextQuery`. -/
def wsSplit : List Char → List (List Char)
  | [] => [[]]
  | a :: as =>
    match wsSplit as with
    | [] => [[]]
    | t :: ts => if a.isWhitespace then [] :: t :: ts else (a :: t) :: ts

def buildTextQueryWs (q : List Char) : List Char :=
  jsJoin [' ', '&', ' '] (wsSplit q)

lemma jsSplit_ne_nil (sep : Char) : ∀ l : List Char, jsSplit sep l ≠ [] := by
  intro l
  cases l with
  | nil => simp [jsSplit]
  | cons a as =>
    rw [jsSplit]
    cases h : jsSplit sep as with
    | nil => simp
    | cons t ts =>
      by_cases hs : a = sep <;> simp [hs]

lemma jsSplit_no_sep (sep : Char) :
    ∀ t : List Char, sep ∉ t → jsSplit sep t = [t] := by
  intro t
  induction t with
  | nil => intro _; rfl
  | cons a as ih =>
    intro h
    have ha : a ≠ sep := fun he => h (by rw [he]; exact List.mem_cons_self _ _)
    have has : sep ∉ as := fun hm => h (List.mem_cons_of_mem _ hm)
    rw [jsSplit, ih has]
    simp [ha]

lemma jsSplit_sep_cons (sep : Char) (r : List Char) :
    jsSplit sep (sep :: r) = [] :: jsSplit sep r := by
  rw [jsSplit]
  cases h : jsSplit sep r with
  | nil => exact absurd h (jsSplit_ne_nil sep r)
  | cons t ts => simp

lemma jsSplit_append_sep (sep : Char) :
    ∀ (t r : List Char), sep ∉ t →
      jsSplit sep (t ++ sep :: r) = t :: jsSplit sep r := by
  intro t
  induction t with
  | nil => intro r _; simpa using jsSplit_sep_cons sep r
  | cons a t' ih =>
    intro r h
    have ha : a ≠ sep := fun he => h (by rw [he]; exact List.mem_cons_self _ _)
    have ht' : sep ∉ t' := fun hm => h (List.mem_cons_of_mem _ hm)
    rw [List.cons_append, jsSplit, ih r ht']
    simp [ha]

/-- Splitting the space-joined terms back recovers the terms, provided no
term contains a space. -/
lemma jsSplit_jsJoin :
    ∀ ts : List (List Char), ts ≠ [] → (∀ t ∈ ts, ' ' ∉ t) →
      jsSplit ' ' (jsJoin [' '] ts) = ts := by
  intro ts
  induction ts with
  | nil => intro h _; exact absurd rfl h
  | cons t ts ih =>
    intro _ hfree
    cases ts with
    | nil =>
      rw [jsJoin]
      exact jsSplit_no_sep ' ' t (hfree t (List.mem_cons_self _ _))
    | cons t' ts' =>
      rw [jsJoin]
      have : t ++ [' '] ++ jsJoin [' '] (t' :: ts') = t ++ ' ' :: jsJoin [' '] (t' :: ts') := by
        simp
      rw [this, jsSplit_append_sep ' ' t _ (hfree t (List.mem_cons_self _ _))]
      rw [ih (by simp) (fun x hx => hfree x (List.mem_cons_of_mem _ hx))]

/-- Counterexample to C7 as stated: the code splits on the space character
only, not on whitespace.  On input `"a\tb"` (tab between two letters) the
code leaves the string unchanged while a whitespace split would produce
`"a & b"`. -/
theorem claim7_counterexample :
    buildTextQuery ['a', '\t', 'b'] = ['a', '\t', 'b'] ∧
    buildTextQueryWs ['a', '\t', 'b'] = ['a', ' ', '&', ' ', 'b'] ∧
    buildTextQuery ['a', '\t', 'b'] ≠ buildTextQueryWs ['a', '\t', 'b'] := by
  refine ⟨by decide, by decide, by decide⟩

/-- C7 (amended): the query builder splits the raw query on the space
character (not on general whitespace) and joins the terms with `" & "`:
on a space-joined list of space-free terms it produces exactly the
`" & "`-joined terms.  The empty input does not throw and normalizes to a
single empty term, so the result is the empty string. -/
theorem claim7_split_join (ts : List (List Char)) (hne : ts ≠ [])
    (hfree : ∀ t ∈ ts, ' ' ∉ t) :
    buildTextQuery (jsJoin [' '] ts) = jsJoin [' ', '&', ' '] ts ∧
    jsSplit ' ' [] = [[]] ∧
    buildTextQuery [] = [] := by
  refine ⟨?_, rfl, rfl⟩
  rw [buildTextQuery, jsSplit_jsJoin ts hne hfree]

theorem claim7_split_join_witness :
    buildTextQuery (jsJoin [' '] [['a'], ['b', 'c']])
        = jsJoin [' ', '&', ' '] [['a'], ['b', 'c']] ∧
    jsSplit ' ' [] = [[]] ∧
    buildTextQuery [] = [] :=
  claim7_split_join [['a'], ['b', 'c']] (by decide) (by decide)

/-! ## Read request handlers

Each read handler is modelled as a function of the authentication
collaborator's result (`viewer : Option String`, the `user` of
`validateRequest()`; `none` means unauthenticated) and of the store tables
it reads, returning its response together with the list of store queries it
issued (`queries`).  The `try/catch → 500` boundary carries no logic and is
not modelled. -/

structure CommentRec where
  id : String
  postId : String
deriving DecidableEq, Repr

/-- A bookmark row of the bookmarks feed: the pagination cursor there
ranges over bookmark ids, and each row carries its post. -/
structure BookmarkRow where
  id : String
  userId : String
  post : Post
deriving DecidableEq, Repr

structure PageResponse where
  status : Nat
  posts : List Post
  nextCursor : Option String
  queries : List String
deriving DecidableEq, Repr

structure CommentsResponse where
  status : Nat
  comments : List CommentRec
  previousCursor : Option String
  queries : List String
deriving DecidableEq, Repr

structure LikeInfoResponse where
  status : Nat
  likes : Nat
  isLikedByUser : Bool
  queries : List String
deriving DecidableEq, Repr

structure FollowerInfoResponse where
  status : Nat
  followers : Nat
  isFollowedByUser : Bool
  queries : List String
deriving DecidableEq, Repr

structure BookmarkInfoResponse where
  status : Nat
  isBookmarkedByUser : Bool
  queries : List String
deriving DecidableEq, Repr

structure UserResponse where
  status : Nat
  userId : Option String
  queries : List String
deriving DecidableEq, Repr

/-- `app/api/posts/for-you` GET: the for-you feed (`pageSize = 10`). -/
def feedGET (viewer : Option String) (posts : List Post)
    (cursor : Option String) : PageResponse :=
  match viewer with
  | none => { status := 401, posts := [], nextCursor := none, queries := [] }
  | some _ =>
      let pg := fetchPage posts 10 cursor
      { status := 200, posts := pg.posts, nextCursor := pg.nextCursor,
        queries := ["post.findMany"] }

/-- `app/api/users/[userId]/posts` GET: one user's posts
(`where: { userId }`, `pageSize = 10`). -/
def userPostsGET (viewer : Option String) (userId : String) (posts : List Post)
    (cursor : Option String) : PageResponse :=
  match viewer with
  | none => { status := 401, posts := [], nextCursor := none, queries := [] }
  | some _ =>
      let pg := fetchPage (posts.filter (fun p => p.userId == userId)) 10 cursor
      { status := 200, posts := pg.posts, nextCursor := pg.nextCursor,
        queries := ["post.findMany"] }

/-- `app/api/search` GET.  The raw query is split on spaces and joined with
`" & "` before authentication is checked; the full-text `search` semantics
of the backend is the collaborator parameter `ftsMatch` (field text against
normalized query).  `pageSize = 10`. -/
def searchGET (ftsMatch : String → List Char → Bool) (q : String)
    (viewer : Option String) (posts : List Post)
    (cursor : Option String) : PageResponse :=
  let searchQuery := buildTextQuery q.data
  match viewer with
  | none => { status := 401, posts := [], nextCursor := none, queries := [] }
  | some _ =>
      let filtered := posts.filter (fun p =>
        ftsMatch p.content searchQuery || ftsMatch p.displayName searchQuery
          || ftsMatch p.username searchQuery)
      let pg := fetchPage filtered 10 cursor
      { status := 200, posts := pg.posts, nextCursor := pg.nextCursor,
        queries := ["post.findMany"] }

/-- `app/api/posts/bookmarked` GET: the viewer's bookmarks
(`where: { userId: user.id }`), paginated over bookmark ids, each row
mapped to its post.  `pageSize = 10`. -/
def bookmarksGET (viewer : Option String) (rows : List BookmarkRow)
    (cursor : Option String) : PageResponse :=
  match viewer with
  | none => { status := 401, posts := [], nextCursor := none, queries := [] }
  | some u =>
      let pg := pageOf BookmarkRow.id (rows.filter (fun b => b.userId == u)) 10 cursor
      { status := 200, posts := pg.1.map BookmarkRow.post, nextCursor := pg.2,
        queries := ["bookmark.findMany"] }

/-- `app/api/posts/[postId]/comments` GET: comments of one post in
ascending creation order, `pageSize = 5`; the continuation field is named
`previousCursor` in the response. -/
def commentsGET (viewer : Option String) (comments : List CommentRec)
    (postId : String) (cursor : Option String) : CommentsResponse :=
  match viewer with
  | none => { status := 401, comments := [], previousCursor := none, queries := [] }
  | some _ =>
      let pg := pageOf CommentRec.id (comments.filter (fun c => c.postId == postId)) 5 cursor
      { status := 200, comments := pg.1, previousCursor := pg.2,
        queries := ["comment.findMany"] }

/-- `app/api/posts/[postId]/likes` GET: the viewer-scoped like projection.
One `post.findUnique` supplies both the viewer-restricted like sub-fetch
and the like count. -/
def likeInfoGET (viewer : Option String) (postId : String) (posts : List Post)
    (likes : List (String × String)) : LikeInfoResponse :=
  match viewer with
  | none => { status := 401, likes := 0, isLikedByUser := false, queries := [] }
  | some u =>
      match posts.find? (fun p => p.id == postId) with
      | none => { status := 404, likes := 0, isLikedByUser := false,
                  queries := ["post.findUnique"] }
      | some _ =>
          { status := 200,
            likes := (likes.filter (fun r => r.2 == postId)).length,
            isLikedByUser := !(likes.filter (fun r => r.1 == u && r.2 == postId)).isEmpty,
            queries := ["post.findUnique"] }

/-- `app/api/users/[userId]/followers` GET: follower count and
viewer-restricted followed-by flag.  `follows` pairs are
`(followerId, followingId)`. -/
def followersGET (viewer : Option String) (userId : String)
    (users : List String) (follows : List (String × String)) : FollowerInfoResponse :=
  match viewer with
  | none => { status := 401, followers := 0, isFollowedByUser := false, queries := [] }
  | some u =>
      if users.contains userId then
        { status := 200,
          followers := (follows.filter (fun r => r.2 == userId)).length,
          isFollowedByUser := !(follows.filter (fun r => r.1 == u && r.2 == userId)).isEmpty,
          queries := ["user.findUnique"] }
      else
        { status := 404, followers := 0, isFollowedByUser := false,
          queries := ["user.findUnique"] }

/-- `app/api/posts/[postId]/bookmark` GET: is the post bookmarked by the
viewer. -/
def bookmarkInfoGET (viewer : Option String) (postId : String)
    (bookmarks : List (String × String)) : BookmarkInfoResponse :=
  match viewer with
  | none => { status := 401, isBookmarkedByUser := false, queries := [] }
  | some u =>
      { status := 200, isBookmarkedByUser := bookmarks.contains (u, postId),
        queries := ["bookmark.findUnique"] }

structure UserProfile where
  id : String
  uname : String
deriving DecidableEq, Repr

/-- `app/api/users/username/[username]` GET: find a user by username,
case-insensitively (`mode: "insensitive"`). -/
def userByUsernameGET (viewer : Option String) (uname : String)
    (users : List UserProfile) : UserResponse :=
  match viewer with
  | none => { status := 401, userId := none, queries := [] }
  | some _ =>
      match users.find? (fun usr => usr.uname.toLower == uname.toLower) with
      | none => { status := 404, userId := none, queries := ["user.findFirst"] }
      | some usr => { status := 200, userId := some usr.id,
                      queries := ["user.findFirst"] }

/-- C5: every page-fetch and projection endpoint invoked with no
authenticated viewer (`user: null` from the authentication collaborator)
returns 401 Unauthorized and issues no store query at all. -/
theorem claim5_unauthorized_before_store :
    (∀ posts cursor, feedGET none posts cursor
      = { status := 401, posts := [], nextCursor := none, queries := [] }) ∧
    (∀ userId posts cursor, userPostsGET none userId posts cursor
      = { status := 401, posts := [], nextCursor := none, queries := [] }) ∧
    (∀ ftsMatch q posts cursor, searchGET ftsMatch q none posts cursor
      = { status := 401, posts := [], nextCursor := none, queries := [] }) ∧
    (∀ rows cursor, bookmarksGET none rows cursor
      = { status := 401, posts := [], nextCursor := none, queries := [] }) ∧
    (∀ comments postId cursor, commentsGET none comments postId cursor
      = { status := 401, comments := [], previousCursor := none, queries := [] }) ∧
    (∀ postId posts likes, likeInfoGET none postId posts likes
      = { status := 401, likes := 0, isLikedByUser := false, queries := [] }) ∧
    (∀ userId users follows, followersGET none userId users follows
      = { status := 401, followers := 0, isFollowedByUser := false, queries := [] }) ∧
    (∀ postId bookmarks, bookmarkInfoGET none postId bookmarks
      = { status := 401, isBookmarkedByUser := false, queries := [] }) ∧
    (∀ uname users, userByUsernameGET none uname users
      = { status := 401, userId := none, queries := [] }) := by
  exact ⟨fun _ _ => rfl, fun _ _ _ => rfl, fun _ _ _ _ => rfl, fun _ _ => rfl,
         fun _ _ _ => rfl, fun _ _ _ => rfl, fun _ _ _ => rfl, fun _ _ => rfl,
         fun _ _ => rfl⟩

/-- A list with no duplicates whose members are all equal to one value has
at most one element. -/
lemma length_le_one_of_nodup_of_all_eq {α : Type} {l : List α} (a : α)
    (hnd : l.Nodup) (hall : ∀ x ∈ l, x = a) : l.length ≤ 1 := by
  cases l with
  | nil => simp
  | cons x xs =>
    cases xs with
    | nil => simp
    | cons y ys =>
      have hx : x = a := hall x (List.mem_cons_self _ _)
      have hy : y = a := hall y (List.mem_cons_of_mem _ (List.mem_cons_self _ _))
      have : x ≠ y := (List.nodup_cons.mp hnd).1 ∘ fun h => h ▸ List.mem_cons_self _ _
      exact absurd (hx.trans hy.symm) this

/-- C8: in the like projection computed from a single store state, the
viewer-restricted like count is 0 or 1 (store rows are unique per
`(userId, postId)`), the total like count is at least the restricted one,
and `isLikedByUser = true` implies `likes ≥ 1`. -/
theorem claim8_like_count_invariant (viewer postId : String) (posts : List Post)
    (likes : List (String × String)) (hnd : likes.Nodup)
    (hpost : (posts.find? (fun p => p.id == postId)).isSome) :
    ((likes.filter (fun r => r.1 == viewer && r.2 == postId)).length ≤ 1) ∧
    ((likes.filter (fun r => r.1 == viewer && r.2 == postId)).length
      ≤ (likeInfoGET (some viewer) postId posts likes).likes) ∧
    ((likeInfoGET (some viewer) postId posts likes).isLikedByUser = true
      → 1 ≤ (likeInfoGET (some viewer) postId posts likes).likes) := by
  obtain ⟨post, hfind⟩ := Option.isSome_iff_exists.mp hpost
  have hres : likeInfoGET (some viewer) postId posts likes
      = { status := 200,
          likes := (likes.filter (fun r => r.2 == postId)).length,
          isLikedByUser := !(likes.filter (fun r => r.1 == viewer && r.2 == postId)).isEmpty,
          queries := ["post.findUnique"] } := by
    rw [likeInfoGET, hfind]
  have hsub : (likes.filter (fun r => r.1 == viewer && r.2 == postId)).length
      ≤ (likes.filter (fun r => r.2 == postId)).length := by
    rw [← List.filter_filter]
    exact List.length_filter_le _ _
  refine ⟨?_, ?_, ?_⟩
  · refine length_le_one_of_nodup_of_all_eq (viewer, postId) (hnd.filter _) ?_
    intro x hx
    have := (List.mem_filter.mp hx).2
    have h1 : x.1 = viewer := by
      have := (Bool.and_eq_true _ _).mp this
      exact beq_iff_eq.mp this.1
    have h2 : x.2 = postId := by
      have := (Bool.and_eq_true _ _).mp this
      exact beq_iff_eq.mp this.2
    exact Prod.ext h1 h2
  · rw [hres]
    exact hsub
  · rw [hres]
    intro hliked
    simp only [Bool.not_eq_true', List.isEmpty_eq_false] at hliked
    have hpos : 0 < (likes.filter (fun r => r.1 == viewer && r.2 == postId)).length :=
      List.length_pos.mpr hliked
    exact le_trans hpos hsub

theorem claim8_like_count_invariant_witness :
    ([("u1", "pp"), ("u2", "pp")] : List (String × String)).Nodup ∧
    (([mkPost "pp"].find? (fun p => p.id == "pp")).isSome) ∧
    ((([("u1", "pp"), ("u2", "pp")] : List (String × String)).filter
        (fun r => r.1 == "u1" && r.2 == "pp")).length ≤ 1) ∧
    ((([("u1", "pp"), ("u2", "pp")] : List (String × String)).filter
        (fun r => r.1 == "u1" && r.2 == "pp")).length
      ≤ (likeInfoGET (some "u1") "pp" [mkPost "pp"]
          [("u1", "pp"), ("u2", "pp")]).likes) ∧
    ((likeInfoGET (some "u1") "pp" [mkPost "pp"]
        [("u1", "pp"), ("u2", "pp")]).isLikedByUser = true
      → 1 ≤ (likeInfoGET (some "u1") "pp" [mkPost "pp"]
          [("u1", "pp"), ("u2", "pp")]).likes) := by
  refine ⟨by decide, by decide, ?_⟩
  exact claim8_like_count_invariant "u1" "pp" [mkPost "pp"]
    [("u1", "pp"), ("u2", "pp")] (by decide) (by decide)

/-! ## Relation-write request handlers

The relational store seen by the write endpoints: the `follow`, `like` and
`bookmark` tables are lists of composite keys, `notification` a list of
records.  Each handler below models the authenticated path of the
corresponding route (the source first checks `validateRequest()` and
returns 401 otherwise, exactly as in the read handlers above); it returns
the HTTP status and the new store state.  Prisma's `upsert` with an empty
`update` keeps an existing row and appends a new one; `deleteMany` removes
every matching row.  `$transaction` is atomicity only — its statements are
applied in order. -/

inductive NotifType
  | LIKE
  | FOLLOW
deriving DecidableEq, Repr

structure Notification where
  issuerId : String
  recipientId : String
  postId : Option String
  ntype : NotifType
deriving DecidableEq, Repr

structure Store where
  posts : List Post
  likes : List (String × String)
  bookmarks : List (String × String)
  follows : List (String × String)
  notifications : List Notification
deriving DecidableEq, Repr

/-- Prisma `upsert` on a composite-key relation table with `update: {}`. -/
def upsertPair (key : String × String) (rel : List (String × String)) :
    List (String × String) :=
  if key ∈ rel then rel else rel ++ [key]

/-- `app/api/posts/[postId]/bookmark` POST: ensure the bookmark exists. -/
def bookmarkPOST (viewer postId : String) (s : Store) : Nat × Store :=
  (200, { s with bookmarks := upsertPair (viewer, postId) s.bookmarks })

/-- `app/api/posts/[postId]/bookmark` DELETE: `bookmark.deleteMany` for
`(viewer, postId)`; no post lookup, always a success response. -/
def bookmarkDELETE (viewer postId : String) (s : Store) : Nat × Store :=
  (200, { s with
    bookmarks := s.bookmarks.filter (fun r => !(r.1 == viewer && r.2 == postId)) })

/-- `app/api/posts/[postId]/likes` POST: look up the post (404 when
absent), then in one transaction upsert the like and — only when the liker
is not the post owner — create a LIKE notification. -/
def likePOST (viewer postId : String) (s : Store) : Nat × Store :=
  match s.posts.find? (fun p => p.id == postId) with
  | none => (404, s)
  | some post =>
      (200, { s with
        likes := upsertPair (viewer, postId) s.likes,
        notifications :=
          if viewer != post.userId then
            s.notifications ++ [⟨viewer, post.userId, some postId, NotifType.LIKE⟩]
          else s.notifications })

/-- `app/api/posts/[postId]/likes` DELETE: look up the post (404 when
absent), then delete the like and the matching LIKE notifications. -/
def likeDELETE (viewer postId : String) (s : Store) : Nat × Store :=
  match s.posts.find? (fun p => p.id == postId) with
  | none => (404, s)
  | some post =>
      (200, { s with
        likes := s.likes.filter (fun r => !(r.1 == viewer && r.2 == postId)),
        notifications := s.notifications.filter (fun n =>
          !(n.issuerId == viewer && n.recipientId == post.userId
            && n.postId == some postId && n.ntype == NotifType.LIKE)) })

/-- `app/api/users/[userId]/followers` POST: in one transaction upsert the
follow relation and create a FOLLOW notification (unconditionally). -/
def followPOST (viewer targetId : String) (s : Store) : Nat × Store :=
  (204, { s with
    follows := upsertPair (viewer, targetId) s.follows,
    notifications := s.notifications ++ [⟨viewer, targetId, none, NotifType.FOLLOW⟩] })

/-- `app/api/users/[userId]/followers` DELETE: delete the follow relation
and the matching FOLLOW notifications. -/
def followDELETE (viewer targetId : String) (s : Store) : Nat × Store :=
  (204, { s with
    follows := s.follows.filter (fun r => !(r.1 == viewer && r.2 == targetId)),
    notifications := s.notifications.filter (fun n =>
      !(n.issuerId == viewer && n.recipientId == targetId
        && n.ntype == NotifType.FOLLOW)) })

lemma upsertPair_idem (key : String × String) (rel : List (String × String)) :
    upsertPair key (upsertPair key rel) = upsertPair key rel := by
  by_cases h : key ∈ rel
  · simp [upsertPair, h]
  · simp [upsertPair, h]

lemma mem_upsertPair_self (key : String × String) (rel : List (String × String)) :
    key ∈ upsertPair key rel := by
  by_cases h : key ∈ rel
  · simpa [upsertPair, h] using h
  · simp [upsertPair, h]

lemma filter_idem {α : Type} (p : α → Bool) (l : List α) :
    (l.filter p).filter p = l.filter p := by
  rw [List.filter_filter]
  simp

def emptyStore : Store := ⟨[], [], [], [], []⟩

/-- Counterexample to C6 as stated: the follow POST endpoint is not
idempotent on the whole store — each request appends a FOLLOW notification,
so two identical requests leave a different store than one. -/
theorem claim6_counterexample :
    (followPOST "u1" "u2" (followPOST "u1" "u2" emptyStore).2).2
      ≠ (followPOST "u1" "u2" emptyStore).2 := by
  decide

/-- C6 (amended): repeating an identical relation-write request converges on
the relation tables for every endpoint — the follow/like/bookmark tables
after two identical requests equal the tables after one — and the bookmark
endpoints and all three delete endpoints converge on the entire store.
(The follow POST and a cross-user like POST are **not** idempotent on the
whole store: each repetition appends another notification record, see the
counterexample.) -/
theorem claim6_relation_convergence (viewer target postId : String) (s : Store) :
    ((followPOST viewer target (followPOST viewer target s).2).2.follows
        = (followPOST viewer target s).2.follows) ∧
    ((likePOST viewer postId (likePOST viewer postId s).2).2.likes
        = (likePOST viewer postId s).2.likes) ∧
    ((bookmarkPOST viewer postId (bookmarkPOST viewer postId s).2).2
        = (bookmarkPOST viewer postId s).2) ∧
    ((bookmarkDELETE viewer postId (bookmarkDELETE viewer postId s).2).2
        = (bookmarkDELETE viewer postId s).2) ∧
    ((likeDELETE viewer postId (likeDELETE viewer postId s).2).2
        = (likeDELETE viewer postId s).2) ∧
    ((followDELETE viewer target (followDELETE viewer target s).2).2
        = (followDELETE viewer target s).2) := by
  refine ⟨?_, ?_, ?_, ?_, ?_, ?_⟩
  · simp [followPOST, upsertPair_idem]
  · cases h : s.posts.find? (fun p => p.id == postId) with
    | none => simp [likePOST, h]
    | some post => simp [likePOST, h, upsertPair_idem]
  · simp [bookmarkPOST, upsertPair_idem]
  · simp [bookmarkDELETE, filter_idem]
  · cases h : s.posts.find? (fun p => p.id == postId) with
    | none => simp [likeDELETE, h]
    | some post => simp [likeDELETE, h, filter_idem]
  · simp [followDELETE, filter_idem]

/-- C9: when an authenticated user likes their own post, the like POST
succeeds, creates (or keeps) the like relation, and creates no
notification: the notification table is unchanged. -/
theorem claim9_self_like_frame (viewer postId : String) (s : Store) (post : Post)
    (hfind : s.posts.find? (fun p => p.id == postId) = some post)
    (hown : post.userId = viewer) :
    (likePOST viewer postId s).1 = 200 ∧
    (likePOST viewer postId s).2.notifications = s.notifications ∧
    (viewer, postId) ∈ (likePOST viewer postId s).2.likes := by
  have hv : (viewer != post.userId) = false := by simp [hown]
  refine ⟨?_, ?_, ?_⟩ <;> simp [likePOST, hfind, hv, mem_upsertPair_self]

def storeC9 : Store := ⟨[⟨"p1", "u1", "", "", ""⟩], [], [], [], []⟩

theorem claim9_self_like_frame_witness :
    storeC9.posts.find? (fun p => p.id == "p1") = some ⟨"p1", "u1", "", "", ""⟩ ∧
    (Post.userId ⟨"p1", "u1", "", "", ""⟩ = "u1") ∧
    ((likePOST "u1" "p1" storeC9).1 = 200 ∧
     (likePOST "u1" "p1" storeC9).2.notifications = storeC9.notifications ∧
     ("u1", "p1") ∈ (likePOST "u1" "p1" storeC9).2.likes) :=
  ⟨by decide, rfl,
   claim9_self_like_frame "u1" "p1" storeC9 ⟨"p1", "u1", "", "", ""⟩ (by decide) rfl⟩

/-- C10: the bookmark DELETE endpoint always answers with a success
response for an authenticated viewer — it performs no post lookup and never
returns NotFound — and when no bookmark for `(viewer, postId)` exists
(including when the post itself does not exist) the store is unchanged. -/
theorem claim10_bookmark_delete_total (viewer postId : String) (s : Store) :
    (bookmarkDELETE viewer postId s).1 = 200 ∧
    ((viewer, postId) ∉ s.bookmarks → (bookmarkDELETE viewer postId s).2 = s) := by
  refine ⟨rfl, ?_⟩
  intro h
  have hfix : s.bookmarks.filter (fun r => !(r.1 == viewer && r.2 == postId))
      = s.bookmarks := by
    apply List.filter_eq_self.mpr
    intro r hr
    have hne : r ≠ (viewer, postId) := fun he => h (he ▸ hr)
    cases r with
    | mk a b =>
      by_cases ha : a = viewer
      · by_cases hb : b = postId
        · exact absurd (by rw [ha, hb]) hne
        · simp [hb]
      · simp [ha]
  simp only [bookmarkDELETE]
  rw [hfix]

theorem claim10_bookmark_delete_total_witness :
    (bookmarkDELETE "u1" "p1" emptyStore).1 = 200 ∧
    (bookmarkDELETE "u1" "p1" emptyStore).2 = emptyStore :=
  ⟨(claim10_bookmark_delete_total "u1" "p1" emptyStore).1,
   (claim10_bookmark_delete_total "u1" "p1" emptyStore).2 (by decide)⟩
